import Mathlib

/-!
Verification development for the `gaia_align` repository (`align.py`, `mes_check.py`).

The numeric core is shallowly embedded over `ℚ` (an exact idealisation of the
Python/numpy `float64` values): images are lists of rows of rationals, numpy
arrays are lists, and Python's slicing, `round` (ties to even) and `int`
(truncation toward zero) are modelled exactly.

External library collaborators that the repository merely calls — scipy's
`curve_fit`, numpy's `sqrt` / `exp` / `hypot`, astropy's `sigma_clipped_stats` —
are not code of this repository; they are abstracted into a `Numerics` bundle of
function parameters, and a fallible call (one that may raise the caught
`RuntimeError` / `ValueError` / `TypeError`) returns an `Option`.  `None` returns
of the Python code are modelled by `Option.none`; the one exception the
repository itself raises (`ValueError('NO PIXSCALE FOUND.')`) is an
`Except.error`.
-/

namespace GaiaAlign

/-- Python `round` on an exact rational: nearest integer, ties to even
(the behaviour of `round`/`np.round` on floats). -/
def pyRound (q : ℚ) : ℤ :=
  let f : ℤ := ⌊q⌋
  let r : ℚ := q - f
  if r < 1/2 then f
  else if 1/2 < r then f + 1
  else if f % 2 = 0 then f else f + 1

/-- Python `int` on a float: truncation toward zero. -/
def pyInt (q : ℚ) : ℤ :=
  if 0 ≤ q then ⌊q⌋ else ⌈q⌉

/-- Normalisation of one bound of a Python slice `l[s:e]` (step 1) for a
sequence of length `n`, exactly as CPython's `PySlice_AdjustIndices`:
a negative index has the length added once, then is clamped to `0`;
a nonnegative index is clamped to `n`. -/
def sliceIndex (n : ℕ) (i : ℤ) : ℕ :=
  if i < 0 then (if i + n < 0 then 0 else (i + n).toNat)
  else min i.toNat n

/-- Python / numpy basic slicing `l[s:e]` with step 1. -/
def pySlice (s e : ℤ) (l : List α) : List α :=
  (l.drop (sliceIndex l.length s)).take (sliceIndex l.length e - sliceIndex l.length s)

/-- `np.sum` of a 1-D array. -/
def npSum (l : List ℚ) : ℚ := l.sum

/-- `np.min` of a (nonempty) 1-D array. -/
def npMin (l : List ℚ) : ℚ := l.foldl min (l.headD 0)

/-- `np.max` of a (nonempty) 1-D array. -/
def npMax (l : List ℚ) : ℚ := l.foldl max (l.headD 0)

/-- `np.mean` of a 1-D array.  On an empty array numpy emits a warning and
produces NaN; `ℚ` has no NaN, so that outcome is modelled as `none`. -/
def npMean (l : List ℚ) : Option ℚ :=
  if l.isEmpty then none else some (l.sum / l.length)

/-- Elementwise numpy product `a * b` with numpy's broadcasting rules for 1-D
arrays: equal lengths multiply pointwise, a length-1 array broadcasts, and any
other length mismatch raises a `ValueError` (modelled as `none`). -/
def npMul (a b : List ℚ) : Option (List ℚ) :=
  if a.length = b.length then some (List.zipWith (· * ·) a b)
  else if a.length = 1 then some (b.map (fun v => a.headD 0 * v))
  else if b.length = 1 then some (a.map (fun v => v * b.headD 0))
  else none

/-- The four parameters fitted by `gauss_fit`, in the order of the source's
`p0` list / returned `popt` array. -/
structure GaussParams where
  constant : ℚ
  amplitude : ℚ
  mean : ℚ
  sigma : ℚ
  deriving DecidableEq, Repr

/-- The external numeric collaborators used by `align.py` (scipy / numpy /
astropy), abstracted as parameters.  `curveFit` receives the model function,
the data and the initial guess, and returns `none` when scipy raises one of the
caught fit-failure exceptions; `sigmaClippedStats` returns astropy's
`(mean, median, stddev)` triple. -/
structure Numerics where
  curveFit : (GaussParams → ℚ → ℚ) → List ℚ → List ℚ → GaussParams → Option GaussParams
  sqrt : ℚ → ℚ
  exp : ℚ → ℚ
  hypot : ℚ → ℚ → ℚ
  sigmaClippedStats : List ℚ → ℚ × ℚ × ℚ

/-- `BOX_PADDING` from `align.py`. -/
def BOX_PADDING : ℤ := 20

/-- `gauss(x_array, constant, amplitude, mean, sigma)` from `align.py`,
pointwise: `constant + amplitude * np.exp(-(x - mean)^2 / (2 * sigma^2))`. -/
def gauss (nb : Numerics) (p : GaussParams) (x : ℚ) : ℚ :=
  p.constant + p.amplitude * nb.exp (-(x - p.mean) ^ 2 / (2 * p.sigma ^ 2))

/-- `gauss_fit(x_array, y_array)` from `align.py`: computes the closed-form
initial guesses and calls `curve_fit` with `p0 = [min y, max y, mean, sigma]`. -/
def gauss_fit (nb : Numerics) (x_array y_array : List ℚ) : Option GaussParams := do
  let prod ← npMul x_array y_array
  let mean := npSum prod / npSum y_array
  let devsq := x_array.map (fun v => (v - mean) ^ 2)
  let prod2 ← npMul y_array devsq
  let sigma := nb.sqrt (npSum prod2 / npSum y_array)
  nb.curveFit (gauss nb) x_array y_array
    { constant := npMin y_array, amplitude := npMax y_array, mean := mean, sigma := sigma }

/-- `sum_columns_and_rows(array_2d)` from `align.py`:
`(np.sum(a, axis=0), np.sum(a, axis=1))` = (column sums, row sums). -/
def sum_columns_and_rows (array_2d : List (List ℚ)) : List ℚ × List ℚ :=
  (array_2d.transpose.map npSum, array_2d.map npSum)

/-- `get_star_position(star)` from `align.py`: fit the row-sum profile, then
the column-sum profile, against `x_values = np.arange(len(row_sum))`, and
return `(column_popt[2], row_popt[2])`.  A raised fit error is `none`. -/
def get_star_position (nb : Numerics) (star : List (List ℚ)) : Option (ℚ × ℚ) :=
  let column_sum := (sum_columns_and_rows star).1
  let row_sum := (sum_columns_and_rows star).2
  let x_values := (List.range row_sum.length).map (fun n : ℕ => (n : ℚ))
  do
    let row_popt ← gauss_fit nb x_values row_sum
    let column_popt ← gauss_fit nb x_values column_sum
    return (column_popt.mean, row_popt.mean)

/-- `create_postage_stamp(x, y, image_data)` from `align.py`: slice
`image_data[round(y)-20 : round(y)+20, round(x)-20 : round(x)+20]`. -/
def create_postage_stamp (x_position y_position : ℚ) (image_data : List (List ℚ)) :
    List (List ℚ) :=
  let x_r := pyRound x_position
  let y_r := pyRound y_position
  (pySlice (y_r - BOX_PADDING) (y_r + BOX_PADDING) image_data).map
    (pySlice (x_r - BOX_PADDING) (x_r + BOX_PADDING))

/-- The source's `0 in image_postage_stamp.shape` test: a 2-D numpy slice has a
zero in its shape exactly when it has no rows or its rows are empty. -/
def hasZeroDim (m : List (List ℚ)) : Bool :=
  m.length == 0 || (m.headD []).length == 0

/-- `cut_star(x, y, image_data)` from `align.py`.  Returns `none` where the
source returns `None` (zero-size stamp, or a caught fit exception), otherwise
`(stamp, int(x) - BOX_PADDING + local_x, int(y) - BOX_PADDING + local_y)`. -/
def cut_star (nb : Numerics) (x_position y_position : ℚ) (image_data : List (List ℚ)) :
    Option (List (List ℚ) × ℚ × ℚ) :=
  let image_postage_stamp := create_postage_stamp x_position y_position image_data
  if hasZeroDim image_postage_stamp then none
  else
    match get_star_position nb image_postage_stamp with
    | some (local_x, local_y) =>
        some (image_postage_stamp,
          (pyInt x_position : ℚ) - (BOX_PADDING : ℚ) + local_x,
          (pyInt y_position : ℚ) - (BOX_PADDING : ℚ) + local_y)
    | none => none

/-- The loop body of `get_usable_gaia`, recursing over the list of candidate
indices (`for i, _ in enumerate(gaia_x_array)`) and accumulating the three
parallel output lists in loop order. -/
def usable_loop (nb : Numerics) (xs ys : List ℚ) (image : List (List ℚ)) :
    List ℕ → List ℚ × List ℚ × List ℕ
  | [] => ([], [], [])
  | i :: rest =>
    let acc := usable_loop nb xs ys image rest
    match cut_star nb (xs.getD i 0) (ys.getD i 0) image with
    | some r => (r.2.1 :: acc.1, r.2.2 :: acc.2.1, i :: acc.2.2)
    | none => acc

/-- `get_usable_gaia(gaia_x_array, gaia_y_array, image)` from `align.py`. -/
def get_usable_gaia (nb : Numerics) (xs ys : List ℚ) (image : List (List ℚ)) :
    List ℚ × List ℚ × List ℕ :=
  usable_loop nb xs ys image (List.range xs.length)

/-- Numpy fancy indexing `l[idx]` with an integer index array. -/
def fancyIndex (l : List ℚ) (idx : List ℕ) : List ℚ :=
  idx.map (fun i => l.getD i 0)

/-- `np.where(l < t)[0]` for a 1-D array: the positions at which the entry is
strictly below the threshold, in ascending order. -/
def npWhereLt (l : List ℚ) (t : ℚ) : List ℕ :=
  (List.range l.length).filter (fun j => decide (l.getD j 0 < t))

/-- `diff = np.hypot(updated_gaia_x[msk] - accurate_gaia_x,
updated_gaia_y[msk] - accurate_gaia_y)` from `_fit_gaia_coords`. -/
def survivorDiffs (nb : Numerics) (updatedX updatedY ax ay : List ℚ) (msk : List ℕ) :
    List ℚ :=
  List.zipWith nb.hypot
    (List.zipWith (· - ·) (fancyIndex updatedX msk) ax)
    (List.zipWith (· - ·) (fancyIndex updatedY msk) ay)

/-- `cut = np.where(diff < diff_median + 1*diff_std)[0]` from
`_fit_gaia_coords`, with `(_, diff_median, diff_std) = sigma_clipped_stats(diff)`. -/
def keptIndices (nb : Numerics) (diff : List ℚ) : List ℕ :=
  let s := nb.sigmaClippedStats diff
  npWhereLt diff (s.2.1 + 1 * s.2.2)

/-- The outputs of `_fit_gaia_coords`: the two offset attributes it assigns
(`none` models the NaN that `np.mean` produces on an empty array), the list of
`(ra, dec)` pairs wrapped into a `SkyCoord`, and the two pixel-coordinate rows
of `gaia_pixcoords`. -/
structure FitResult where
  offsetX : Option ℚ
  offsetY : Option ℚ
  skyCoords : List (ℚ × ℚ)
  pixX : List ℚ
  pixY : List ℚ
  deriving DecidableEq, Repr

/-- `Image._fit_gaia_coords(gaia_offset_x, gaia_offset_y)` from `align.py`,
with the image state (`current_gaia_x/y`, `gaia_ra/dec`, `data`) passed
explicitly.  Follows the source line by line: update the predicted positions by
the manual offset, refine with `get_usable_gaia`, cut on the sigma-clipped
statistics of the discrepancies, and average / collect over the kept subset. -/
def fit_gaia_coords (nb : Numerics) (currentX currentY gaiaRa gaiaDec : List ℚ)
    (image : List (List ℚ)) (goffX goffY : List ℚ) : FitResult :=
  let updatedX := List.zipWith (· + ·) currentX goffX
  let updatedY := List.zipWith (· + ·) currentY goffY
  let u := get_usable_gaia nb updatedX updatedY image
  let diff := survivorDiffs nb updatedX updatedY u.1 u.2.1 u.2.2
  let cut := keptIndices nb diff
  { offsetX := npMean (List.zipWith (· - ·) (fancyIndex u.1 cut)
      (fancyIndex (fancyIndex currentX u.2.2) cut))
    offsetY := npMean (List.zipWith (· - ·) (fancyIndex u.2.1 cut)
      (fancyIndex (fancyIndex currentY u.2.2) cut))
    skyCoords := List.zipWith (fun a b => (a, b))
      (fancyIndex (fancyIndex gaiaRa u.2.2) cut)
      (fancyIndex (fancyIndex gaiaDec u.2.2) cut)
    pixX := fancyIndex u.1 cut
    pixY := fancyIndex u.2.1 cut }

/-- `find_data_extension(hdul)` from `mes_check.py`: each part of the container
is represented by its optional data block.  The source's `for`-loop returns the
first index whose `hdu.data is not None`; falling off the loop is Python's
implicit `None`, modelled as `none` — the source has no error path here. -/
def find_data_extension {α : Type} : List (Option α) → Option ℕ
  | [] => none
  | d :: rest =>
    if d.isSome then some 0 else (find_data_extension rest).map (· + 1)

/-- The one error `mes_check.py` raises: `ValueError('NO PIXSCALE FOUND.')`,
which the specification names `NoPixelScaleFound`. -/
inductive FitsError where
  | noPixelScaleFound
  deriving DecidableEq, Repr

/-- A FITS header restricted to its numeric key/value pairs; `header[k]`
is association-list lookup, and a missing key is Python's `KeyError`. -/
def headerLookup (header : List (String × ℚ)) (k : String) : Option ℚ :=
  header.lookup k

/-- `get_pixscale_from_wcs(header)` from `mes_check.py`: the nested
`try/except KeyError` cascade over `CDELT1`, `CD1_1`, `PC1_1`, taking
`np.abs` of the first value found. -/
def get_pixscale_from_wcs (header : List (String × ℚ)) : Except FitsError ℚ :=
  match headerLookup header (r"CDELT1") with
  | some v => .ok |v|
  | none =>
    match headerLookup header (r"CD1_1") with
    | some v => .ok |v|
    | none =>
      match headerLookup header (r"PC1_1") with
      | some v => .ok |v|
      | none => .error .noPixelScaleFound

/-- Whether `cut_star` succeeds on candidate `i` — the loop test of
`get_usable_gaia`. -/
def centroidSuccess (nb : Numerics) (xs ys : List ℚ) (image : List (List ℚ))
    (i : ℕ) : Bool :=
  (cut_star nb (xs.getD i 0) (ys.getD i 0) image).isSome

/-- The refined x position `cut_star` computes for candidate `i`
(defaulting to `0` where it fails). -/
def centroidX (nb : Numerics) (xs ys : List ℚ) (image : List (List ℚ)) (i : ℕ) : ℚ :=
  match cut_star nb (xs.getD i 0) (ys.getD i 0) image with
  | some r => r.2.1
  | none => 0

/-- The refined y position `cut_star` computes for candidate `i`
(defaulting to `0` where it fails). -/
def centroidY (nb : Numerics) (xs ys : List ℚ) (image : List (List ℚ)) (i : ℕ) : ℚ :=
  match cut_star nb (xs.getD i 0) (ys.getD i 0) image with
  | some r => r.2.2
  | none => 0

/-- A concrete instantiation of the external numeric collaborators, used to
evaluate the embedding on concrete inputs: the solver returns its initial
guess, `sqrt`/`exp` are the identity, `hypot` adds, and the sigma-clipped
statistics are the constant triple `(0, 100, 0)`. -/
def echoNumerics : Numerics where
  curveFit := fun _ _ _ p0 => some p0
  sqrt := id
  exp := id
  hypot := fun a b => a + b
  sigmaClippedStats := fun _ => (0, 100, 0)

/-- A 1×1 test image. -/
def img1 : List (List ℚ) := [[1]]

/-- A 4×4 test image of ones. -/
def img4 : List (List ℚ) := List.replicate 4 (List.replicate 4 1)

/-- A 25×25 test image of ones (both dimensions below `2*BOX_PADDING`). -/
def img25 : List (List ℚ) := List.replicate 25 (List.replicate 25 1)

/-- A 40×40 test image of ones (both dimensions exactly `2*BOX_PADDING`). -/
def img40 : List (List ℚ) := List.replicate 40 (List.replicate 40 1)

/-- A 1×30 test image whose pixel values encode their column index. -/
def rowImg30 : List (List ℚ) := [(List.range 30).map (fun n : ℕ => (n : ℚ))]

/-- The batch-refiner invariant of `get_usable_gaia` (claim C2): the three
outputs are parallel arrays of one common length — the number of candidates on
which `cut_star` succeeds — the survivor-index array is strictly ascending with
every entry in `0..N-1`, and the `j`-th refined x/y are exactly the centroid
`cut_star` computes for the candidate at the `j`-th surviving index. -/
def batchInvariant (nb : Numerics) (xs ys : List ℚ) (image : List (List ℚ)) : Prop :=
  let r := get_usable_gaia nb xs ys image
  r.1.length = r.2.2.length ∧
  r.2.1.length = r.2.2.length ∧
  r.2.2.length = (List.range xs.length).countP (centroidSuccess nb xs ys image) ∧
  r.2.2.Pairwise (· < ·) ∧
  (∀ i ∈ r.2.2, i < xs.length) ∧
  ∀ j, j < r.2.2.length →
    (cut_star nb (xs.getD (r.2.2.getD j 0) 0) (ys.getD (r.2.2.getD j 0) 0) image).map
      (fun t => (t.2.1, t.2.2)) = some (r.1.getD j 0, r.2.1.getD j 0)

/-- The outlier-cut characterisation of `_fit_gaia_coords` (claim C3): a
survivor position `j` is kept exactly when its discrepancy
`hypot(predicted - refined)` is strictly below the sigma-clipped median plus
one sigma-clipped standard deviation (a one-sided cut with no lower bound),
and the estimator's pixel outputs are indexed by exactly that kept set. -/
def keptCutCharacterization (nb : Numerics) (currentX currentY : List ℚ)
    (image : List (List ℚ)) (goffX goffY : List ℚ) : Prop :=
  let updatedX := List.zipWith (· + ·) currentX goffX
  let updatedY := List.zipWith (· + ·) currentY goffY
  let u := get_usable_gaia nb updatedX updatedY image
  let diff := survivorDiffs nb updatedX updatedY u.1 u.2.1 u.2.2
  let s := nb.sigmaClippedStats diff
  (∀ j, j ∈ keptIndices nb diff ↔
    j < u.2.2.length ∧
      nb.hypot (updatedX.getD (u.2.2.getD j 0) 0 - u.1.getD j 0)
        (updatedY.getD (u.2.2.getD j 0) 0 - u.2.1.getD j 0) < s.2.1 + 1 * s.2.2) ∧
  ∀ gaiaRa gaiaDec,
    (fit_gaia_coords nb currentX currentY gaiaRa gaiaDec image goffX goffY).pixX =
      fancyIndex u.1 (keptIndices nb diff)

/-- The kept-subset outputs of `_fit_gaia_coords` (claim C4): the offset is the
arithmetic mean over the kept subset of (refined position minus the original
pre-manual-offset predicted position), and the matched sky/pixel pairs are
exactly the kept subset's catalog ra/dec and refined pixel x/y, listed over the
strictly ascending kept positions (survivor order). -/
def keptOffsetSpec (nb : Numerics) (currentX currentY gaiaRa gaiaDec : List ℚ)
    (image : List (List ℚ)) (goffX goffY : List ℚ) : Prop :=
  let updatedX := List.zipWith (· + ·) currentX goffX
  let updatedY := List.zipWith (· + ·) currentY goffY
  let u := get_usable_gaia nb updatedX updatedY image
  let diff := survivorDiffs nb updatedX updatedY u.1 u.2.1 u.2.2
  let K := keptIndices nb diff
  let res := fit_gaia_coords nb currentX currentY gaiaRa gaiaDec image goffX goffY
  res.offsetX = some ((K.map (fun j => u.1.getD j 0 - currentX.getD (u.2.2.getD j 0) 0)).sum /
      (K.length : ℚ)) ∧
  res.offsetY = some ((K.map (fun j => u.2.1.getD j 0 - currentY.getD (u.2.2.getD j 0) 0)).sum /
      (K.length : ℚ)) ∧
  res.skyCoords = K.map (fun j =>
      (gaiaRa.getD (u.2.2.getD j 0) 0, gaiaDec.getD (u.2.2.getD j 0) 0)) ∧
  res.pixX = K.map (fun j => u.1.getD j 0) ∧
  res.pixY = K.map (fun j => u.2.1.getD j 0) ∧
  K.Pairwise (· < ·)

/-- The failure policy of `cut_star` (claim C6): a stamp with a zero-length
dimension yields the failure value at once, for every possible fitter (no fit
is attempted); a failed `get_star_position` yields the failure value; and
`get_star_position` fails whenever either of its two 1-D Gaussian fits fails —
it never partially succeeds. -/
def centroiderFailurePolicy (nb : Numerics) (x y : ℚ) (image : List (List ℚ)) : Prop :=
  (hasZeroDim (create_postage_stamp x y image) = true →
    ∀ nb', cut_star nb' x y image = none) ∧
  (get_star_position nb (create_postage_stamp x y image) = none →
    cut_star nb x y image = none) ∧
  ∀ star : List (List ℚ),
    (gauss_fit nb ((List.range (sum_columns_and_rows star).2.length).map (fun n : ℕ => (n : ℚ)))
        (sum_columns_and_rows star).2 = none ∨
      gauss_fit nb ((List.range (sum_columns_and_rows star).2.length).map (fun n : ℕ => (n : ℚ)))
        (sum_columns_and_rows star).1 = none) →
    get_star_position nb star = none

/-- The key cascade of `get_pixscale_from_wcs` (claim C8): `CDELT1`, then
`CD1_1`, then `PC1_1`, in strict order, returning the absolute value of the
first key present, and failing with `NoPixelScaleFound` iff none of the three
keys exist. -/
def pixscaleCascadeSpec (header : List (String × ℚ)) : Prop :=
  (∀ v, headerLookup header (r"CDELT1") = some v →
    get_pixscale_from_wcs header = .ok |v|) ∧
  (headerLookup header (r"CDELT1") = none →
    ∀ v, headerLookup header (r"CD1_1") = some v →
      get_pixscale_from_wcs header = .ok |v|) ∧
  (headerLookup header (r"CDELT1") = none → headerLookup header (r"CD1_1") = none →
    ∀ v, headerLookup header (r"PC1_1") = some v →
      get_pixscale_from_wcs header = .ok |v|) ∧
  (get_pixscale_from_wcs header = .error .noPixelScaleFound ↔
    headerLookup header (r"CDELT1") = none ∧ headerLookup header (r"CD1_1") = none ∧
      headerLookup header (r"PC1_1") = none)

/-- Edge behaviour of `create_postage_stamp` under Python slice semantics
(claim C10, amended).  First part: on an image with both dimensions at least
40, a guess whose rounded x or y coordinate lies in `[-20, 19]` — below the
padding but by no more than the padding — produces a stamp with a zero-length
dimension, so `cut_star` fails.  Second part: a guess overhanging only the
high x edge (y fully inside) yields a non-empty truncated stamp of 40 rows and
fewer than 40 columns — hence non-square — on which the Gaussian-fit branch of
`cut_star` is still taken.  Third part: on an image with a dimension smaller
than 40, negative slice bounds wrap to the opposite edge: with pixel values
encoding their column index, the guess at column 10 yields a non-empty stamp
drawn entirely from columns 20..29, none of which surround the guess. -/
def stampEdgeSpec : Prop :=
  (∀ (nb : Numerics) (image : List (List ℚ)) (W : ℕ) (x y : ℚ),
    40 ≤ image.length → (∀ row ∈ image, row.length = W) → 40 ≤ W →
    ((-20 ≤ pyRound x ∧ pyRound x < 20) ∨ (-20 ≤ pyRound y ∧ pyRound y < 20)) →
    hasZeroDim (create_postage_stamp x y image) = true ∧ cut_star nb x y image = none) ∧
  (∀ (image : List (List ℚ)) (W : ℕ) (x y : ℚ),
    (∀ row ∈ image, row.length = W) →
    20 ≤ pyRound y → pyRound y + 20 ≤ (image.length : ℤ) →
    20 ≤ pyRound x → pyRound x - 20 < (W : ℤ) → (W : ℤ) < pyRound x + 20 →
    (create_postage_stamp x y image).length = 40 ∧
    (∀ row ∈ create_postage_stamp x y image,
      (row.length : ℤ) = (W : ℤ) - (pyRound x - 20)) ∧
    0 < (W : ℤ) - (pyRound x - 20) ∧ (W : ℤ) - (pyRound x - 20) < 40 ∧
    hasZeroDim (create_postage_stamp x y image) = false ∧
    ∀ nb, cut_star nb x y image =
      (get_star_position nb (create_postage_stamp x y image)).map
        (fun p => (create_postage_stamp x y image,
          (pyInt x : ℚ) - (BOX_PADDING : ℚ) + p.1,
          (pyInt y : ℚ) - (BOX_PADDING : ℚ) + p.2))) ∧
  (rowImg30.length < 40 ∧
    create_postage_stamp 10 0 rowImg30 = [((List.range 30).map (fun n : ℕ => (n : ℚ))).drop 20] ∧
    ∀ v ∈ (create_postage_stamp 10 0 rowImg30).headD [], 10 < v)

lemma sliceIndex_le (n : ℕ) (i : ℤ) : sliceIndex n i ≤ n := by
  unfold sliceIndex
  split
  · split <;> omega
  · exact min_le_right _ _

lemma sliceIndex_of_nonneg {n : ℕ} {i : ℤ} (h : 0 ≤ i) :
    sliceIndex n i = min i.toNat n := by
  unfold sliceIndex
  rw [if_neg (by omega)]

lemma sliceIndex_of_neg {n : ℕ} {i : ℤ} (h : i < 0) :
    (sliceIndex n i : ℤ) = max 0 (i + n) := by
  unfold sliceIndex
  rw [if_pos h]
  split <;> omega

lemma length_pySlice (s e : ℤ) (l : List α) :
    (pySlice s e l).length = sliceIndex l.length e - sliceIndex l.length s := by
  have h := sliceIndex_le l.length e
  simp only [pySlice, List.length_take, List.length_drop]
  omega

lemma pySlice_eq_nil_of_le {s e : ℤ} (l : List α)
    (h : sliceIndex l.length e ≤ sliceIndex l.length s) : pySlice s e l = [] := by
  have hl := length_pySlice s e l
  exact List.length_eq_zero.mp (by omega)

lemma mem_of_mem_pySlice {a : α} {s e : ℤ} {l : List α} (h : a ∈ pySlice s e l) :
    a ∈ l :=
  List.mem_of_mem_drop (List.mem_of_mem_take h)

lemma headD_mem {l : List α} (h : l ≠ []) (d : α) : l.headD d ∈ l := by
  cases l with
  | nil => exact absurd rfl h
  | cons a t => exact List.mem_cons_self a t

lemma getD_mem {l : List α} {j : ℕ} (h : j < l.length) (d : α) : l.getD j d ∈ l := by
  rw [List.getD_eq_getElem l d h]
  exact List.getElem_mem h

lemma getD_map {α β : Type} (f : α → β) (l : List α) {j : ℕ} (d : β) (d' : α)
    (h : j < l.length) : (l.map f).getD j d = f (l.getD j d') := by
  rw [List.getD_eq_getElem _ _ (by simpa using h), List.getD_eq_getElem _ _ h,
    List.getElem_map]

lemma getD_zipWith {α β γ : Type} (f : α → β → γ) (as : List α) (bs : List β)
    {j : ℕ} (da : α) (db : β) (dc : γ) (h1 : j < as.length) (h2 : j < bs.length) :
    (List.zipWith f as bs).getD j dc = f (as.getD j da) (bs.getD j db) := by
  induction as generalizing bs j with
  | nil => simp at h1
  | cons a ta ih =>
    cases bs with
    | nil => simp at h2
    | cons b tb =>
      cases j with
      | zero => rfl
      | succ j =>
        simp only [List.zipWith_cons_cons, List.getD_cons_succ]
        exact ih tb (by simpa using h1) (by simpa using h2)

lemma zipWith_map_same {α β γ δ : Type} (f : β → γ → δ) (g : α → β) (h : α → γ)
    (l : List α) :
    List.zipWith f (l.map g) (l.map h) = l.map (fun a => f (g a) (h a)) := by
  induction l with
  | nil => rfl
  | cons a t ih => simp [ih]

lemma create_postage_stamp_eq (x y : ℚ) (image : List (List ℚ)) :
    create_postage_stamp x y image =
      (pySlice (pyRound y - BOX_PADDING) (pyRound y + BOX_PADDING) image).map
        (pySlice (pyRound x - BOX_PADDING) (pyRound x + BOX_PADDING)) := rfl

lemma low_slice_le {n : ℕ} {r : ℤ} (hn : 40 ≤ n) (h1 : -20 ≤ r) (h2 : r < 20) :
    sliceIndex n (r + BOX_PADDING) ≤ sliceIndex n (r - BOX_PADDING) := by
  unfold sliceIndex BOX_PADDING
  split_ifs <;> omega

lemma hasZeroDim_of_all_nil {f : List ℚ → List ℚ} {l : List (List ℚ)}
    (h : ∀ r ∈ l, f r = []) : hasZeroDim (l.map f) = true := by
  cases l with
  | nil => rfl
  | cons a t => simp [hasZeroDim, h a (List.mem_cons_self a t)]

lemma npMean_map_of_ne_nil {φ : ℕ → ℚ} {K : List ℕ} (h : K ≠ []) :
    npMean (K.map φ) = some ((K.map φ).sum / (K.length : ℚ)) := by
  unfold npMean
  rw [if_neg (by simp [List.isEmpty_iff, h]), List.length_map]

lemma usable_loop_eq (nb : Numerics) (xs ys : List ℚ) (image : List (List ℚ))
    (l : List ℕ) :
    usable_loop nb xs ys image l =
      ((l.filter (centroidSuccess nb xs ys image)).map (centroidX nb xs ys image),
        (l.filter (centroidSuccess nb xs ys image)).map (centroidY nb xs ys image),
        l.filter (centroidSuccess nb xs ys image)) := by
  induction l with
  | nil => rfl
  | cons i rest ih =>
    have hbody : usable_loop nb xs ys image (i :: rest) =
        match cut_star nb (xs.getD i 0) (ys.getD i 0) image with
        | some r => (r.2.1 :: (usable_loop nb xs ys image rest).1,
            r.2.2 :: (usable_loop nb xs ys image rest).2.1,
            i :: (usable_loop nb xs ys image rest).2.2)
        | none => usable_loop nb xs ys image rest := rfl
    cases h : cut_star nb (xs.getD i 0) (ys.getD i 0) image with
    | some r =>
      have hs : centroidSuccess nb xs ys image i = true := by
        unfold centroidSuccess
        rw [h]
        rfl
      have hx : centroidX nb xs ys image i = r.2.1 := by
        unfold centroidX
        rw [h]
      have hy : centroidY nb xs ys image i = r.2.2 := by
        unfold centroidY
        rw [h]
      rw [hbody, h, ih, List.filter_cons, hs]
      simp [hx, hy]
    | none =>
      have hs : centroidSuccess nb xs ys image i = false := by
        unfold centroidSuccess
        rw [h]
        rfl
      rw [hbody, h, ih, List.filter_cons, hs]
      simp

lemma get_usable_gaia_eq (nb : Numerics) (xs ys : List ℚ) (image : List (List ℚ)) :
    get_usable_gaia nb xs ys image =
      (((List.range xs.length).filter (centroidSuccess nb xs ys image)).map
          (centroidX nb xs ys image),
        ((List.range xs.length).filter (centroidSuccess nb xs ys image)).map
          (centroidY nb xs ys image),
        (List.range xs.length).filter (centroidSuccess nb xs ys image)) :=
  usable_loop_eq nb xs ys image (List.range xs.length)

lemma get_usable_gaia_fst_length (nb : Numerics) (xs ys : List ℚ)
    (image : List (List ℚ)) :
    (get_usable_gaia nb xs ys image).1.length =
      (get_usable_gaia nb xs ys image).2.2.length := by
  rw [get_usable_gaia_eq]
  simp

lemma get_usable_gaia_snd_length (nb : Numerics) (xs ys : List ℚ)
    (image : List (List ℚ)) :
    (get_usable_gaia nb xs ys image).2.1.length =
      (get_usable_gaia nb xs ys image).2.2.length := by
  rw [get_usable_gaia_eq]
  simp

lemma survivorDiffs_length (nb : Numerics) (uX uY ax ay : List ℚ) (msk : List ℕ)
    (hx : ax.length = msk.length) (hy : ay.length = msk.length) :
    (survivorDiffs nb uX uY ax ay msk).length = msk.length := by
  simp [survivorDiffs, fancyIndex, List.length_zipWith, hx, hy]

lemma survivorDiffs_getD (nb : Numerics) (uX uY ax ay : List ℚ) (msk : List ℕ)
    (hx : ax.length = msk.length) (hy : ay.length = msk.length) {j : ℕ}
    (hj : j < msk.length) :
    (survivorDiffs nb uX uY ax ay msk).getD j 0 =
      nb.hypot (uX.getD (msk.getD j 0) 0 - ax.getD j 0)
        (uY.getD (msk.getD j 0) 0 - ay.getD j 0) := by
  have hfx : (fancyIndex uX msk).length = msk.length := by simp [fancyIndex]
  have hfy : (fancyIndex uY msk).length = msk.length := by simp [fancyIndex]
  unfold survivorDiffs
  rw [getD_zipWith _ _ _ 0 0 0 (by simp [List.length_zipWith, hfx, hx]; omega)
      (by simp [List.length_zipWith, hfy, hy]; omega),
    getD_zipWith _ _ _ 0 0 0 (by omega) (by omega),
    getD_zipWith _ _ _ 0 0 0 (by omega) (by omega)]
  unfold fancyIndex
  rw [getD_map _ _ _ 0 hj, getD_map _ _ _ 0 hj]

lemma mem_keptIndices_iff (nb : Numerics) (diff : List ℚ) (j : ℕ) :
    j ∈ keptIndices nb diff ↔
      j < diff.length ∧
        diff.getD j 0 <
          (nb.sigmaClippedStats diff).2.1 + 1 * (nb.sigmaClippedStats diff).2.2 := by
  simp [keptIndices, npWhereLt, List.mem_filter, List.mem_range]

lemma keptIndices_pairwise (nb : Numerics) (diff : List ℚ) :
    (keptIndices nb diff).Pairwise (· < ·) :=
  List.Pairwise.filter _ (List.pairwise_lt_range _)

lemma gauss_fit_eq (nb : Numerics) (x_array y_array : List ℚ) :
    gauss_fit nb x_array y_array =
      (npMul x_array y_array).bind (fun prod =>
        (npMul y_array (x_array.map (fun v =>
            (v - npSum prod / npSum y_array) ^ 2))).bind (fun prod2 =>
          nb.curveFit (gauss nb) x_array y_array
            { constant := npMin y_array
              amplitude := npMax y_array
              mean := npSum prod / npSum y_array
              sigma := nb.sqrt (npSum prod2 / npSum y_array) })) := rfl

lemma get_star_position_eq (nb : Numerics) (star : List (List ℚ)) :
    get_star_position nb star =
      (gauss_fit nb ((List.range (sum_columns_and_rows star).2.length).map (fun n : ℕ => (n : ℚ)))
          (sum_columns_and_rows star).2).bind (fun row_popt =>
        (gauss_fit nb ((List.range (sum_columns_and_rows star).2.length).map (fun n : ℕ => (n : ℚ)))
            (sum_columns_and_rows star).1).bind (fun column_popt =>
          some (column_popt.mean, row_popt.mean))) := rfl

lemma cut_star_eq (nb : Numerics) (x y : ℚ) (image : List (List ℚ)) :
    cut_star nb x y image =
      if hasZeroDim (create_postage_stamp x y image) then none
      else
        match get_star_position nb (create_postage_stamp x y image) with
        | some p => some (create_postage_stamp x y image,
            (pyInt x : ℚ) - (BOX_PADDING : ℚ) + p.1,
            (pyInt y : ℚ) - (BOX_PADDING : ℚ) + p.2)
        | none => none := by
  unfold cut_star
  by_cases hz : hasZeroDim (create_postage_stamp x y image) = true
  · simp only [if_pos hz]
  · simp only [if_neg hz]
    cases hg : get_star_position nb (create_postage_stamp x y image) with
    | none => rfl
    | some p =>
      obtain ⟨lx, ly⟩ := p
      rfl

/-- Claim C1 (amended: the reconstruction uses Python `int` — truncation toward
zero — not `floor`; the two agree on nonnegative guesses only): whenever
`cut_star` succeeds, the stamp is the one extracted around the *rounded* guess
by `create_postage_stamp`, and the refined centroid is
`(int(x) - 20 + column_fit_mean, int(y) - 20 + row_fit_mean)` where the fit
means come from `get_star_position` on that stamp. -/
theorem cut_star_trunc_reconstruction (nb : Numerics) (x y : ℚ)
    (image stamp : List (List ℚ)) (aX aY : ℚ)
    (h : cut_star nb x y image = some (stamp, aX, aY)) :
    stamp = create_postage_stamp x y image ∧
    ∃ lx ly, get_star_position nb (create_postage_stamp x y image) = some (lx, ly) ∧
      aX = (pyInt x : ℚ) - (BOX_PADDING : ℚ) + lx ∧
      aY = (pyInt y : ℚ) - (BOX_PADDING : ℚ) + ly := by
  rw [cut_star_eq] at h
  by_cases hz : hasZeroDim (create_postage_stamp x y image) = true
  · rw [if_pos hz] at h
    exact absurd h (by simp)
  · rw [if_neg hz] at h
    cases hg : get_star_position nb (create_postage_stamp x y image) with
    | none =>
      rw [hg] at h
      exact absurd h (by simp)
    | some p =>
      obtain ⟨lx, ly⟩ := p
      rw [hg] at h
      simp only [Option.some.injEq, Prod.mk.injEq] at h
      exact ⟨h.1.symm, lx, ly, rfl, h.2.1.symm, h.2.2.symm⟩

set_option maxRecDepth 100000 in
set_option maxHeartbeats 1000000 in
/-- Witness for C1's amended theorem: a concrete successful run on the 4×4
image of ones with guess (2, 2). -/
theorem cut_star_trunc_reconstruction_witness :
    img4 = create_postage_stamp 2 2 img4 ∧
    ∃ lx ly, get_star_position echoNumerics (create_postage_stamp 2 2 img4) = some (lx, ly) ∧
      (-33/2 : ℚ) = (pyInt 2 : ℚ) - (BOX_PADDING : ℚ) + lx ∧
      (-33/2 : ℚ) = (pyInt 2 : ℚ) - (BOX_PADDING : ℚ) + ly :=
  cut_star_trunc_reconstruction echoNumerics 2 2 img4 img4 (-33/2) (-33/2)
    (by with_unfolding_all decide)

set_option maxRecDepth 100000 in
set_option maxHeartbeats 4000000 in
/-- Counterexample to C1 as stated: on the 25×25 image of ones with guess
`(-11/2, 6)` the slices wrap and `cut_star` succeeds; the column and row fit
means are both `13/2`, and the returned x coordinate is
`int(-11/2) - 20 + 13/2 = -37/2`, whereas the claim's
`floor(-11/2) - 20 + 13/2 = -39/2`. -/
theorem cut_star_floor_counterexample :
    cut_star echoNumerics (-11/2) 6 img25 =
      some (create_postage_stamp (-11/2) 6 img25, -37/2, -15/2) ∧
    get_star_position echoNumerics (create_postage_stamp (-11/2) 6 img25) =
      some (13/2, 13/2) ∧
    (-37/2 : ℚ) ≠ ((⌊(-11/2 : ℚ)⌋ : ℚ) - (BOX_PADDING : ℚ) + 13/2) := by
  refine ⟨by with_unfolding_all decide, by with_unfolding_all decide,
    by with_unfolding_all decide⟩

set_option maxRecDepth 100000 in
set_option maxHeartbeats 1000000 in
/-- Claim C5: with zero survivors the estimator does not raise — there is no
`InsufficientMatchesError` anywhere in the source — and the NaN that
`np.mean` produces on an empty array (modelled as `none`) propagates into both
offset outputs, while the matched-pair outputs are silently empty. -/
theorem fit_gaia_coords_nan_on_zero_survivors :
    fit_gaia_coords echoNumerics [100] [100] [1] [2] img1 [0] [0] =
      { offsetX := none, offsetY := none, skyCoords := [], pixX := [], pixY := [] } := by
  with_unfolding_all decide

/-- Claim C7: `find_data_extension` returns the index of the first part whose
data block is non-null (here the 3-part container with data only at index 1),
but on exhaustion it falls off the loop and returns Python's implicit `None` —
there is no `NoDataExtensionFound` error anywhere in the source. -/
theorem find_data_extension_null_on_exhaustion :
    find_data_extension ([none, some 5, none] : List (Option ℕ)) = some 1 ∧
    find_data_extension ([none, none, none] : List (Option ℕ)) = none := by
  refine ⟨rfl, rfl⟩

/-- Claim C6: the failure policy of `cut_star` — immediate failure (for every
fitter) on a stamp with a zero-length dimension, whole-centroid failure when
`get_star_position` fails, and `get_star_position` fails whenever either 1-D
Gaussian fit fails. -/
theorem star_centroider_failure_policy (nb : Numerics) (x y : ℚ)
    (image : List (List ℚ)) : centroiderFailurePolicy nb x y image := by
  unfold centroiderFailurePolicy
  refine ⟨?_, ?_, ?_⟩
  · intro hz nb'
    rw [cut_star_eq, if_pos hz]
  · intro hg
    rw [cut_star_eq]
    by_cases hz : hasZeroDim (create_postage_stamp x y image) = true
    · rw [if_pos hz]
    · rw [if_neg hz, hg]
  · intro star hdisj
    rw [get_star_position_eq]
    cases h1 : gauss_fit nb
        ((List.range (sum_columns_and_rows star).2.length).map (fun n : ℕ => (n : ℚ)))
        (sum_columns_and_rows star).2 with
    | none => rw [Option.none_bind]
    | some rp =>
      cases h2 : gauss_fit nb
          ((List.range (sum_columns_and_rows star).2.length).map (fun n : ℕ => (n : ℚ)))
          (sum_columns_and_rows star).1 with
      | none => rw [Option.some_bind, Option.none_bind]
      | some cp =>
        rcases hdisj with hd | hd
        · rw [h1] at hd
          exact absurd hd (by simp)
        · rw [h2] at hd
          exact absurd hd (by simp)

set_option maxRecDepth 10000 in
/-- Witness for C6: a 1×1 image with a guess far past the high edge gives a
stamp with a zero-length dimension, and `cut_star` returns the failure value. -/
theorem star_centroider_failure_policy_witness :
    hasZeroDim (create_postage_stamp 30 0 img1) = true ∧
    cut_star echoNumerics 30 0 img1 = none :=
  ⟨by with_unfolding_all decide,
    (star_centroider_failure_policy echoNumerics 30 0 img1).1
      (by with_unfolding_all decide) echoNumerics⟩

/-- Claim C8: the strict `CDELT1` → `CD1_1` → `PC1_1` cascade of
`get_pixscale_from_wcs`, with the absolute value of the first present key, and
`NoPixelScaleFound` exactly when all three keys are absent. -/
theorem pixscale_resolver_cascade (header : List (String × ℚ)) :
    pixscaleCascadeSpec header := by
  unfold pixscaleCascadeSpec get_pixscale_from_wcs
  cases h1 : headerLookup header (r"CDELT1") with
  | some v => simp
  | none =>
    cases h2 : headerLookup header (r"CD1_1") with
    | some v => simp
    | none =>
      cases h3 : headerLookup header (r"PC1_1") with
      | some v => simp
      | none => simp

/-- Witness for C8: a header carrying only `CD1_1 = 0.04` resolves to `0.04`
through the second branch, and the empty header fails with
`NoPixelScaleFound`. -/
theorem pixscale_resolver_cascade_witness :
    get_pixscale_from_wcs [((r"CD1_1"), 1/25)] = .ok |(1/25 : ℚ)| ∧
    get_pixscale_from_wcs [] = .error .noPixelScaleFound :=
  ⟨(pixscale_resolver_cascade [((r"CD1_1"), 1/25)]).2.1 rfl (1/25) rfl,
    ((pixscale_resolver_cascade []).2.2.2).mpr ⟨rfl, rfl, rfl⟩⟩

/-- Claim C9: for equal-length data with nonzero total intensity, `gauss_fit`
calls the nonlinear solver on the Gaussian model with exactly the closed-form
seed `(min y, max y, Σxy/Σy, sqrt(Σ(y·(x-mean)²)/Σy))`. -/
theorem gauss_fit_seed_spec (nb : Numerics) (x_array y_array : List ℚ)
    (hlen : x_array.length = y_array.length) (hsum : npSum y_array ≠ 0) :
    gauss_fit nb x_array y_array = nb.curveFit (gauss nb) x_array y_array
      { constant := npMin y_array
        amplitude := npMax y_array
        mean := npSum (List.zipWith (· * ·) x_array y_array) / npSum y_array
        sigma := nb.sqrt (npSum (List.zipWith (· * ·) y_array
            (x_array.map (fun v =>
              (v - npSum (List.zipWith (· * ·) x_array y_array) / npSum y_array) ^ 2))) /
          npSum y_array) } := by
  have h1 : npMul x_array y_array = some (List.zipWith (· * ·) x_array y_array) := by
    unfold npMul
    rw [if_pos hlen]
  have h2 : npMul y_array (x_array.map (fun v =>
      (v - npSum (List.zipWith (· * ·) x_array y_array) / npSum y_array) ^ 2)) =
      some (List.zipWith (· * ·) y_array (x_array.map (fun v =>
        (v - npSum (List.zipWith (· * ·) x_array y_array) / npSum y_array) ^ 2))) := by
    unfold npMul
    rw [if_pos (by rw [List.length_map, hlen])]
  rw [gauss_fit_eq, h1, Option.some_bind, h2, Option.some_bind]

/-- Witness for C9: the seed equation evaluated at `x = [0,1]`, `y = [1,3]`
(so `Σy = 4 ≠ 0`). -/
theorem gauss_fit_seed_spec_witness :
    ([(0 : ℚ), 1].length = [(1 : ℚ), 3].length ∧ npSum [(1 : ℚ), 3] ≠ 0) ∧
    gauss_fit echoNumerics [0, 1] [1, 3] =
      echoNumerics.curveFit (gauss echoNumerics) [0, 1] [1, 3]
        { constant := npMin [1, 3]
          amplitude := npMax [1, 3]
          mean := npSum (List.zipWith (· * ·) [0, 1] [1, 3]) / npSum [1, 3]
          sigma := echoNumerics.sqrt (npSum (List.zipWith (· * ·) [1, 3]
              (List.map (fun v =>
                (v - npSum (List.zipWith (· * ·) [0, 1] [1, 3]) / npSum [1, 3]) ^ 2)
                [0, 1])) / npSum [1, 3]) } :=
  ⟨⟨rfl, by with_unfolding_all decide⟩,
    gauss_fit_seed_spec echoNumerics [0, 1] [1, 3] rfl (by with_unfolding_all decide)⟩

/-- Claim C2: for equal-length candidate arrays, `get_usable_gaia` returns
three parallel arrays of one common length K (the number of candidates whose
centroid succeeds); the survivor-index array is strictly ascending with every
index in `0..N-1`, and position `j` carries exactly the centroid of the
candidate at the `j`-th surviving index. -/
theorem batch_refiner_invariant (nb : Numerics) (xs ys : List ℚ)
    (image : List (List ℚ)) (hlen : xs.length = ys.length) :
    batchInvariant nb xs ys image := by
  have h1 : (get_usable_gaia nb xs ys image).1 =
      ((List.range xs.length).filter (centroidSuccess nb xs ys image)).map
        (centroidX nb xs ys image) := by rw [get_usable_gaia_eq]
  have h2 : (get_usable_gaia nb xs ys image).2.1 =
      ((List.range xs.length).filter (centroidSuccess nb xs ys image)).map
        (centroidY nb xs ys image) := by rw [get_usable_gaia_eq]
  have h3 : (get_usable_gaia nb xs ys image).2.2 =
      (List.range xs.length).filter (centroidSuccess nb xs ys image) := by
    rw [get_usable_gaia_eq]
  unfold batchInvariant
  simp only [h1, h2, h3]
  refine ⟨by simp, by simp, by simp [List.countP_eq_length_filter],
    List.Pairwise.filter _ (List.pairwise_lt_range _), ?_, ?_⟩
  · intro i hi
    exact List.mem_range.mp (List.mem_filter.mp hi).1
  · intro j hj
    set F := (List.range xs.length).filter (centroidSuccess nb xs ys image) with hF
    set i := F.getD j 0 with hi
    have himem : i ∈ F := getD_mem hj 0
    have hSi : centroidSuccess nb xs ys image i = true := (List.mem_filter.mp himem).2
    have hSi' : (cut_star nb (xs.getD i 0) (ys.getD i 0) image).isSome = true := hSi
    cases hc : cut_star nb (xs.getD i 0) (ys.getD i 0) image with
    | none =>
      rw [hc] at hSi'
      exact absurd hSi' (by simp)
    | some r =>
      have hx : centroidX nb xs ys image i = r.2.1 := by
        unfold centroidX
        rw [hc]
      have hy : centroidY nb xs ys image i = r.2.2 := by
        unfold centroidY
        rw [hc]
      rw [getD_map (centroidX nb xs ys image) F (0 : ℚ) 0 hj,
        getD_map (centroidY nb xs ys image) F (0 : ℚ) 0 hj, hx, hy]
      rfl

/-- Witness for C2: two candidates on the 4×4 image — the first succeeds, the
second falls entirely outside — so the invariant is exercised with K = 1. -/
theorem batch_refiner_invariant_witness :
    ([(2 : ℚ), 50].length = [(2 : ℚ), 2].length) ∧
    batchInvariant echoNumerics [2, 50] [2, 2] img4 :=
  ⟨rfl, batch_refiner_invariant echoNumerics [2, 50] [2, 2] img4 rfl⟩

/-- Claim C3: for a non-empty survivor set, the kept subset of
`_fit_gaia_coords` is exactly the survivor positions whose discrepancy
`hypot(predicted - refined)` is strictly below the sigma-clipped median plus
one sigma-clipped standard deviation. -/
theorem outlier_cut_characterization (nb : Numerics) (currentX currentY : List ℚ)
    (image : List (List ℚ)) (goffX goffY : List ℚ)
    (hsurv : (get_usable_gaia nb (List.zipWith (· + ·) currentX goffX)
      (List.zipWith (· + ·) currentY goffY) image).2.2 ≠ []) :
    keptCutCharacterization nb currentX currentY image goffX goffY := by
  unfold keptCutCharacterization
  constructor
  · intro j
    have hx := get_usable_gaia_fst_length nb (List.zipWith (· + ·) currentX goffX)
      (List.zipWith (· + ·) currentY goffY) image
    have hy := get_usable_gaia_snd_length nb (List.zipWith (· + ·) currentX goffX)
      (List.zipWith (· + ·) currentY goffY) image
    rw [mem_keptIndices_iff]
    constructor
    · rintro ⟨hjlen, hlt⟩
      rw [survivorDiffs_length nb _ _ _ _ _ hx hy] at hjlen
      rw [survivorDiffs_getD nb _ _ _ _ _ hx hy hjlen] at hlt
      exact ⟨hjlen, hlt⟩
    · rintro ⟨hjlen, hlt⟩
      refine ⟨?_, ?_⟩
      · rw [survivorDiffs_length nb _ _ _ _ _ hx hy]
        exact hjlen
      · rw [survivorDiffs_getD nb _ _ _ _ _ hx hy hjlen]
        exact hlt
  · intro gaiaRa gaiaDec
    rfl

set_option maxRecDepth 10000 in
/-- Witness for C3: the single candidate at (2, 2) on the 4×4 image survives,
so the survivor set is non-empty and the characterisation applies. -/
theorem outlier_cut_characterization_witness :
    ((get_usable_gaia echoNumerics (List.zipWith (· + ·) [2] [0])
        (List.zipWith (· + ·) [2] [0]) img4).2.2 ≠ []) ∧
    keptCutCharacterization echoNumerics [2] [2] img4 [0] [0] :=
  ⟨by with_unfolding_all decide,
    outlier_cut_characterization echoNumerics [2] [2] img4 [0] [0]
      (by with_unfolding_all decide)⟩

/-- Claim C4: over a non-empty kept subset, `_fit_gaia_coords` returns as
offset the arithmetic mean of (refined minus original pre-manual-offset
predicted position), and as matched pairs exactly the kept subset's catalog
ra/dec and refined pixel x/y, in ascending (survivor) order. -/
theorem kept_offset_and_pairs (nb : Numerics)
    (currentX currentY gaiaRa gaiaDec : List ℚ) (image : List (List ℚ))
    (goffX goffY : List ℚ)
    (hne : keptIndices nb (survivorDiffs nb (List.zipWith (· + ·) currentX goffX)
        (List.zipWith (· + ·) currentY goffY)
        (get_usable_gaia nb (List.zipWith (· + ·) currentX goffX)
          (List.zipWith (· + ·) currentY goffY) image).1
        (get_usable_gaia nb (List.zipWith (· + ·) currentX goffX)
          (List.zipWith (· + ·) currentY goffY) image).2.1
        (get_usable_gaia nb (List.zipWith (· + ·) currentX goffX)
          (List.zipWith (· + ·) currentY goffY) image).2.2) ≠ []) :
    keptOffsetSpec nb currentX currentY gaiaRa gaiaDec image goffX goffY := by
  have hx := get_usable_gaia_fst_length nb (List.zipWith (· + ·) currentX goffX)
    (List.zipWith (· + ·) currentY goffY) image
  have hy := get_usable_gaia_snd_length nb (List.zipWith (· + ·) currentX goffX)
    (List.zipWith (· + ·) currentY goffY) image
  have hKlt : ∀ j ∈ keptIndices nb (survivorDiffs nb (List.zipWith (· + ·) currentX goffX)
      (List.zipWith (· + ·) currentY goffY)
      (get_usable_gaia nb (List.zipWith (· + ·) currentX goffX)
        (List.zipWith (· + ·) currentY goffY) image).1
      (get_usable_gaia nb (List.zipWith (· + ·) currentX goffX)
        (List.zipWith (· + ·) currentY goffY) image).2.1
      (get_usable_gaia nb (List.zipWith (· + ·) currentX goffX)
        (List.zipWith (· + ·) currentY goffY) image).2.2),
      j < (get_usable_gaia nb (List.zipWith (· + ·) currentX goffX)
        (List.zipWith (· + ·) currentY goffY) image).2.2.length := by
    intro j hj
    have := ((mem_keptIndices_iff nb _ j).mp hj).1
    rwa [survivorDiffs_length nb _ _ _ _ _ hx hy] at this
  simp only [keptOffsetSpec, fit_gaia_coords]
  set uX := List.zipWith (· + ·) currentX goffX with huX
  set uY := List.zipWith (· + ·) currentY goffY with huY
  set U := get_usable_gaia nb uX uY image with hU
  set D := survivorDiffs nb uX uY U.1 U.2.1 U.2.2 with hD
  set K := keptIndices nb D with hK
  refine ⟨?_, ?_, ?_, rfl, rfl, keptIndices_pairwise _ _⟩
  · have e : List.zipWith (· - ·) (fancyIndex U.1 K)
        (fancyIndex (fancyIndex currentX U.2.2) K) =
        K.map (fun j => U.1.getD j 0 - currentX.getD (U.2.2.getD j 0) 0) := by
      unfold fancyIndex
      rw [zipWith_map_same]
      apply List.map_congr_left
      intro j hj
      rw [getD_map (fun i => currentX.getD i 0) U.2.2 (0 : ℚ) 0 (hKlt j hj)]
    rw [e, npMean_map_of_ne_nil hne]
  · have e : List.zipWith (· - ·) (fancyIndex U.2.1 K)
        (fancyIndex (fancyIndex currentY U.2.2) K) =
        K.map (fun j => U.2.1.getD j 0 - currentY.getD (U.2.2.getD j 0) 0) := by
      unfold fancyIndex
      rw [zipWith_map_same]
      apply List.map_congr_left
      intro j hj
      rw [getD_map (fun i => currentY.getD i 0) U.2.2 (0 : ℚ) 0 (hKlt j hj)]
    rw [e, npMean_map_of_ne_nil hne]
  · unfold fancyIndex
    rw [zipWith_map_same]
    apply List.map_congr_left
    intro j hj
    rw [getD_map (fun i => gaiaRa.getD i 0) U.2.2 (0 : ℚ) 0 (hKlt j hj),
      getD_map (fun i => gaiaDec.getD i 0) U.2.2 (0 : ℚ) 0 (hKlt j hj)]

set_option maxRecDepth 10000 in
/-- Witness for C4: the single surviving candidate at (2, 2) on the 4×4 image
is kept (its discrepancy 37 is below the constant threshold 100), so the kept
subset is non-empty and the offset/pair equations apply. -/
theorem kept_offset_and_pairs_witness :
    (keptIndices echoNumerics (survivorDiffs echoNumerics
        (List.zipWith (· + ·) [2] [0]) (List.zipWith (· + ·) [2] [0])
        (get_usable_gaia echoNumerics (List.zipWith (· + ·) [2] [0])
          (List.zipWith (· + ·) [2] [0]) img4).1
        (get_usable_gaia echoNumerics (List.zipWith (· + ·) [2] [0])
          (List.zipWith (· + ·) [2] [0]) img4).2.1
        (get_usable_gaia echoNumerics (List.zipWith (· + ·) [2] [0])
          (List.zipWith (· + ·) [2] [0]) img4).2.2) ≠ []) ∧
    keptOffsetSpec echoNumerics [2] [2] [7] [9] img4 [0] [0] :=
  ⟨by with_unfolding_all decide,
    kept_offset_and_pairs echoNumerics [2] [2] [7] [9] img4 [0] [0]
      (by with_unfolding_all decide)⟩

/-- Claim C10 (amended): on an image with both dimensions at least 40, a guess
whose rounded coordinate is in `[-20, 19]` — below the padding by at most the
padding — yields a zero-length stamp dimension and `cut_star` fails (rounded
coordinates at or below `-21` can instead wrap to a non-empty stamp); a guess
overhanging only the high x edge yields a non-empty truncated non-square stamp
on which the Gaussian-fit branch is still taken; and on an image with a
dimension smaller than 40 the negative bounds wrap to the opposite edge,
producing a non-empty stamp whose pixels do not surround the guess.
Stamp extraction itself is total by construction (`pySlice` clamps). -/
theorem stamp_edge_behaviour : stampEdgeSpec := by
  unfold stampEdgeSpec
  refine ⟨?_, ?_, ?_⟩
  · intro nb image W x y hH hrect hW hguess
    have hzd : hasZeroDim (create_postage_stamp x y image) = true := by
      rcases hguess with ⟨h1, h2⟩ | ⟨h1, h2⟩
      · rw [create_postage_stamp_eq]
        apply hasZeroDim_of_all_nil
        intro r hrow
        apply pySlice_eq_nil_of_le
        have hrl : r.length = W := hrect r (mem_of_mem_pySlice hrow)
        rw [hrl]
        exact low_slice_le hW h1 h2
      · rw [create_postage_stamp_eq,
          pySlice_eq_nil_of_le image (low_slice_le hH h1 h2)]
        rfl
    exact ⟨hzd, by rw [cut_star_eq, if_pos hzd]⟩
  · intro image W x y hrect hy1 hy2 hx1 hx2 hx3
    have hrowlen : (pySlice (pyRound y - BOX_PADDING) (pyRound y + BOX_PADDING)
        image).length = 40 := by
      rw [length_pySlice,
        sliceIndex_of_nonneg (by simp only [BOX_PADDING]; omega),
        sliceIndex_of_nonneg (by simp only [BOX_PADDING]; omega)]
      simp only [BOX_PADDING]
      omega
    have hcol : ∀ r : List ℚ,
        r ∈ pySlice (pyRound y - BOX_PADDING) (pyRound y + BOX_PADDING) image →
        (pySlice (pyRound x - BOX_PADDING) (pyRound x + BOX_PADDING) r).length =
          ((W : ℤ) - (pyRound x - 20)).toNat := by
      intro r hr
      have hrl : r.length = W := hrect r (mem_of_mem_pySlice hr)
      rw [length_pySlice, hrl,
        sliceIndex_of_nonneg (by simp only [BOX_PADDING]; omega),
        sliceIndex_of_nonneg (by simp only [BOX_PADDING]; omega)]
      simp only [BOX_PADDING]
      omega
    have hlen : (create_postage_stamp x y image).length = 40 := by
      rw [create_postage_stamp_eq, List.length_map, hrowlen]
    have hrows : ∀ row ∈ create_postage_stamp x y image,
        (row.length : ℤ) = (W : ℤ) - (pyRound x - 20) := by
      intro row hrow
      rw [create_postage_stamp_eq] at hrow
      obtain ⟨r, hr, rfl⟩ := List.mem_map.mp hrow
      rw [hcol r hr]
      omega
    have hzf : hasZeroDim (create_postage_stamp x y image) = false := by
      have hne : create_postage_stamp x y image ≠ [] := by
        intro hnil
        rw [hnil] at hlen
        exact absurd hlen (by simp)
      have hhl := hrows _ (headD_mem hne ([] : List ℚ))
      have hhne : ((create_postage_stamp x y image).headD []).length ≠ 0 := by omega
      have hhd : (create_postage_stamp x y image).headD [] ≠ [] := by
        intro hcontra
        rw [hcontra] at hhne
        exact hhne rfl
      rw [List.headD_eq_head?_getD] at hhd
      unfold hasZeroDim
      rw [hlen]
      simp [hhne, hhd]
    refine ⟨hlen, hrows, by omega, by omega, hzf, ?_⟩
    intro nb
    rw [cut_star_eq, if_neg (by simp [hzf])]
    cases hg : get_star_position nb (create_postage_stamp x y image) with
    | none => rfl
    | some p =>
      obtain ⟨a, b⟩ := p
      rfl
  · exact (by with_unfolding_all decide)

set_option maxRecDepth 10000 in
/-- Witness for C10's amended theorem: on the 40×40 image the guess (0, 20)
has rounded x coordinate 0 ∈ [-20, 19], so the stamp has a zero-length
dimension and `cut_star` fails. -/
theorem stamp_edge_behaviour_witness :
    hasZeroDim (create_postage_stamp 0 20 img40) = true ∧
    cut_star echoNumerics 0 20 img40 = none :=
  stamp_edge_behaviour.1 echoNumerics img40 40 0 20 (by with_unfolding_all decide)
    (fun row hr => by
      have hrow : row = List.replicate 40 (1 : ℚ) := List.eq_of_mem_replicate hr
      rw [hrow]
      simp)
    (by decide) (Or.inl (by with_unfolding_all decide))

set_option maxRecDepth 100000 in
set_option maxHeartbeats 4000000 in
/-- Counterexample to C10 as stated: on the 40×40 image (both dimensions at
least 40) the guess (-21, 21) has rounded x coordinate -21 < 20, yet the
negative slice bounds wrap to a non-empty 39×39 stamp (no zero-length
dimension) and `cut_star` succeeds, returning x = int(-21) - 20 + 19 = -22. -/
theorem stamp_low_guess_counterexample :
    pyRound (-21 : ℚ) = -21 ∧ ((-21 : ℤ) < 20) ∧
    img40.length = 40 ∧ (img40.headD []).length = 40 ∧
    hasZeroDim (create_postage_stamp (-21) 21 img40) = false ∧
    cut_star echoNumerics (-21) 21 img40 =
      some (create_postage_stamp (-21) 21 img40, -22, 20) := by
  refine ⟨by with_unfolding_all decide, by decide, by with_unfolding_all decide,
    by with_unfolding_all decide, by with_unfolding_all decide,
    by with_unfolding_all decide⟩

end GaiaAlign
